import Mathlib

/-!
Verification development for the go-leader-board repository.

The repository is a real-time leaderboard service.  Its ranking engine is a
skip list keyed by user id and ordered by an injected comparator over
(score, timestamp) records; per game there are four window leaderboards
(all-time, 24h, 3d, 7d), a game registry, an HTTP write endpoint, and a
Kafka consumer that applies batches to durable storage and the cache.

Shallow embedding conventions:
- Go `time.Time` instants are modelled as `Int` (nanoseconds on a linear
  clock); the zero value of `time.Time` is modelled as `0`, and
  `time.Duration(h) * time.Hour` as `h * nsPerHour`.
- Go `uint64` scores are modelled as `Nat`: scores are only compared,
  never added, so no wrap-around behaviour is involved.
- The skip list (internal/cache/skiplist.go, span variant) is modelled by
  its base-level (level 0) linked list plus its key map.  For every
  operation of that variant the higher levels are a performance device:
  insert/delete/Search/GetTopK/GetAll/GetLength read or write only the
  base-level order and the map, and the span GetRank sums, over the
  traversed links of any level, span counters that total exactly the
  base-level nodes passed, so its result is independent of the random
  level assignment.  The GetRank of the span-LESS variant is different:
  it increments rank once per traversed link at any level, so its result
  depends on the levels the nodes drew; that function is therefore
  modelled separately (SpanlessSkipList) with an explicit level per node.
- The Go map `mapIndex` is modelled as an association list; map entries
  store the Key/Value of the node they point to (nodes are never mutated
  in place, so a dangling pointer still shows the value it carried).
- `float64` percentile arithmetic is modelled over `ℚ`; at the concrete
  values evaluated in the theorems below the float computation is exact.
-/

namespace GoLeaderBoard

/-- models.Score (internal/models, IWhitebird variant): a score event. -/
structure Score where
  gameId : Int
  userId : Int
  score : Nat
  timestamp : Int
  deriving DecidableEq, Repr

/-- models.ScoreCompare: negative when `a` is better, compares score
descending then timestamp ascending. -/
def ScoreCompare (a b : Score) : Int :=
  if a.score ≠ b.score then
    if b.score < a.score then -1 else 1
  else if a.timestamp ≠ b.timestamp then
    if a.timestamp < b.timestamp then -1 else 1
  else 0

/-- Go map lookup on the association-list model of a map. -/
def mapLookup {K V : Type} [DecidableEq K] (m : List (K × V)) (k : K) : Option V :=
  match m with
  | [] => none
  | (k', v) :: rest => if k' = k then some v else mapLookup rest k

/-- Go map assignment `m[k] = v` on the association-list model. -/
def mapSet {K V : Type} [DecidableEq K] (m : List (K × V)) (k : K) (v : V) : List (K × V) :=
  match m with
  | [] => [(k, v)]
  | (k', v') :: rest => if k' = k then (k, v) :: rest else (k', v') :: mapSet rest k v

/-- Go map deletion `delete(m, k)` on the association-list model. -/
def mapErase {K V : Type} [DecidableEq K] (m : List (K × V)) (k : K) : List (K × V) :=
  match m with
  | [] => []
  | (k', v') :: rest => if k' = k then rest else (k', v') :: mapErase rest k

/-- SkipList (internal/cache/skiplist.go, span variant): base-level node
list in comparator order, the `mapIndex` key map, and the `length`
counter. -/
structure SkipList (K V : Type) where
  nodes : List (K × V)
  mapIndex : List (K × V)
  length : Nat
  deriving DecidableEq, Repr

/-- NewSkipList: empty header list, empty map, length 0. -/
def SkipList.new (K V : Type) : SkipList K V :=
  { nodes := [], mapIndex := [], length := 0 }

/-- The level-0 walk of insertNode: advance while the next node's value is
strictly better (compare < 0), then link the new node in front of the
first node that is not strictly better. -/
def insertWalk {K V : Type} (cmp : V → V → Int) (key : K) (value : V) :
    List (K × V) → List (K × V)
  | [] => [(key, value)]
  | (k', v') :: rest =>
    if cmp v' value < 0 then (k', v') :: insertWalk cmp key value rest
    else (key, value) :: (k', v') :: rest

/-- SkipList.insertNode: link the node at its comparator position, set
`mapIndex[key]`, increment `length` (the Go method returns true). -/
def SkipList.insertNode {K V : Type} [DecidableEq K] (cmp : V → V → Int)
    (sl : SkipList K V) (key : K) (value : V) : SkipList K V :=
  { nodes := insertWalk cmp key value sl.nodes
    mapIndex := mapSet sl.mapIndex key value
    length := sl.length + 1 }

/-- The level-0 walk of deleteNode: advance while strictly better; the
candidate is the first node with compare ≥ 0, removed iff compare = 0.
`none` means no node was unlinked. -/
def deleteWalk {K V : Type} (cmp : V → V → Int) (value : V) :
    List (K × V) → Option (List (K × V))
  | [] => none
  | (k', v') :: rest =>
    if cmp v' value < 0 then
      match deleteWalk cmp value rest with
      | some rest' => some ((k', v') :: rest')
      | none => none
    else if cmp v' value = 0 then some rest
    else none

/-- SkipList.deleteNode: the walk searches by comparator value only; on a
hit it unlinks that node, removes `mapIndex[key]` for the PASSED key and
decrements `length`.  Note the unlinked node is the first node whose value
compares equal, which need not be the node of `key`. -/
def SkipList.deleteNode {K V : Type} [DecidableEq K] (cmp : V → V → Int)
    (sl : SkipList K V) (key : K) (value : V) : Bool × SkipList K V :=
  match deleteWalk cmp value sl.nodes with
  | some nodes' =>
    (true, { nodes := nodes', mapIndex := mapErase sl.mapIndex key, length := sl.length - 1 })
  | none => (false, sl)

/-- SkipList.InsertOrUpdate: insert when the key is absent; when present,
replace (deleteNode on the stored value, then insertNode) exactly when the
new value is strictly better per the comparator, otherwise return false
and leave the structure unchanged. -/
def SkipList.InsertOrUpdate {K V : Type} [DecidableEq K] (cmp : V → V → Int)
    (sl : SkipList K V) (key : K) (value : V) : Bool × SkipList K V :=
  match mapLookup sl.mapIndex key with
  | some vOld =>
    if cmp value vOld < 0 then
      (true, SkipList.insertNode cmp (SkipList.deleteNode cmp sl key vOld).2 key value)
    else (false, sl)
  | none => (true, SkipList.insertNode cmp sl key value)

/-- SkipList.Delete: look the key up in the map and deleteNode its stored
key and value. -/
def SkipList.Delete {K V : Type} [DecidableEq K] (cmp : V → V → Int)
    (sl : SkipList K V) (key : K) : Bool × SkipList K V :=
  match mapLookup sl.mapIndex key with
  | none => (false, sl)
  | some v => SkipList.deleteNode cmp sl key v

/-- SkipList.Search: O(1) map lookup of the stored value. -/
def SkipList.Search {K V : Type} [DecidableEq K] (sl : SkipList K V) (key : K) : Option V :=
  mapLookup sl.mapIndex key

/-- The single-level rank walk: one step per node traversed while the
node value is strictly better than the target value, stopping at the
first node that is not.  This is the level-0 loop of both GetRank
variants; the span-less variant computes exactly this count when every
node is at level 1. -/
def rankWalk {K V : Type} (cmp : V → V → Int) (v : V) : List (K × V) → Nat
  | [] => 0
  | (_, v') :: rest => if cmp v' v < 0 then 1 + rankWalk cmp v rest else 0

/-- One level of the span-less GetRank walk (skiplist.go, the variant
without Span counters).  The suffix holds the base-level nodes after the
current position, each with the height its Forward array drew; a node is
linked at level i iff i < height.  The level-i pointer targets the first
linked node of the suffix; while that target's value is strictly better
than the target value the walk advances to it, incrementing rank by ONE
even though the link may skip base nodes.  Returns the steps taken and
the suffix after the final position, from which the next level down
continues. -/
def walkAtLevel {K V : Type} (cmp : V → V → Int) (v : V) (i : Nat) :
    List ((K × V) × Nat) → Nat × List ((K × V) × Nat)
  | [] => (0, [])
  | ((k', v'), lvl) :: rest =>
    if i < lvl then
      if cmp v' v < 0 then
        let step := walkAtLevel cmp v i rest
        (step.1 + 1, step.2)
      else (0, ((k', v'), lvl) :: rest)
    else
      let step := walkAtLevel cmp v i rest
      if step.1 = 0 then (0, ((k', v'), lvl) :: rest) else step

/-- The descending-level loop of the span-less GetRank: process levels
sl.level − 1 down to 0, accumulating the rank increments of each level's
walk and continuing from where it stopped. -/
def spanlessRankSteps {K V : Type} (cmp : V → V → Int) (v : V) :
    Nat → List ((K × V) × Nat) → Nat
  | 0, _ => 0
  | i + 1, l => (walkAtLevel cmp v i l).1 + spanlessRankSteps cmp v i (walkAtLevel cmp v i l).2

/-- The span-less skip list variant (skiplist.go, third variant, no Span
field): base-level nodes each paired with the height of their Forward
array (the randomLevel draw, at least 1), the key map, and the list
level (the maximum height in use). -/
structure SpanlessSkipList (K V : Type) where
  nodes : List ((K × V) × Nat)
  mapIndex : List (K × V)
  level : Nat
  deriving DecidableEq, Repr

/-- SpanlessSkipList.GetRank (skiplist.go span-less variant): absent key
gives (0, false), modelled as `none`; otherwise rank starts at 1 and is
incremented once per link traversed at any level of the descending walk
below the stored value. -/
def SpanlessSkipList.GetRank {K V : Type} [DecidableEq K] (cmp : V → V → Int)
    (sl : SpanlessSkipList K V) (key : K) : Option Nat :=
  match mapLookup sl.mapIndex key with
  | none => none
  | some v => some (1 + spanlessRankSteps cmp v sl.level sl.nodes)

/-- The walk of the span GetRank variant: rank starts at 0 and accumulates
`x.Span[i]` per traversed link; at level 0 every traversed link spans
exactly one node, so each step adds 1 on the right. -/
def spanRankWalk {K V : Type} (cmp : V → V → Int) (v : V) : List (K × V) → Nat
  | [] => 0
  | (_, v') :: rest => if cmp v' v < 0 then spanRankWalk cmp v rest + 1 else 0

/-- SkipList.GetRank (span variant): accumulate spans along the walk and
return rank + 1. -/
def SkipList.GetRankSpan {K V : Type} [DecidableEq K] (cmp : V → V → Int)
    (sl : SkipList K V) (key : K) : Option Nat :=
  match mapLookup sl.mapIndex key with
  | none => none
  | some v => some (spanRankWalk cmp v sl.nodes + 1)

/-- Entry (internal/cache/skiplist.go). -/
structure Entry (K V : Type) where
  Key : K
  Value : V
  Rank : Nat
  deriving DecidableEq, Repr

/-- The loop of GetTopK: `for i := 0; i < k && x != nil; i++` emitting
Rank i+1 and following the level-0 pointer. -/
def topKWalk {K V : Type} (i k : Nat) : List (K × V) → List (Entry K V)
  | [] => []
  | (key, v) :: rest =>
    if i < k then { Key := key, Value := v, Rank := i + 1 } :: topKWalk (i + 1) k rest
    else []

/-- SkipList.GetTopK: first k base-level nodes with ranks 1, 2, ...
(a Go `k ≤ 0` runs zero iterations, as does `k = 0` here). -/
def SkipList.GetTopK {K V : Type} (sl : SkipList K V) (k : Nat) : List (Entry K V) :=
  topKWalk 0 k sl.nodes

/-- The loop of GetAll: the whole base-level list with ranks from 1. -/
def allWalk {K V : Type} (rank : Nat) : List (K × V) → List (Entry K V)
  | [] => []
  | (key, v) :: rest => { Key := key, Value := v, Rank := rank } :: allWalk (rank + 1) rest

/-- SkipList.GetAll: every base-level node in order with ranks 1, 2, ... -/
def SkipList.GetAll {K V : Type} (sl : SkipList K V) : List (Entry K V) :=
  allWalk 1 sl.nodes

/-- SkipList.GetLength: the `length` counter. -/
def SkipList.GetLength {K V : Type} (sl : SkipList K V) : Nat :=
  sl.length

/-- SkipList.Contains: map membership. -/
def SkipList.Contains {K V : Type} [DecidableEq K] (sl : SkipList K V) (key : K) : Bool :=
  (mapLookup sl.mapIndex key).isSome

/-- SkipList.IsEmpty. -/
def SkipList.IsEmpty {K V : Type} (sl : SkipList K V) : Bool :=
  sl.length = 0

/-- models.TimeWindow: duration in hours (0 = all time) and display tag. -/
structure TimeWindow where
  Hours : Int
  Display : String
  deriving DecidableEq, Repr

/-- models.AllTime. -/
def AllTime : TimeWindow := { Hours := 0, Display := "all" }

/-- models.Last24Hours. -/
def Last24Hours : TimeWindow := { Hours := 24, Display := "24h" }

/-- models.Last3Days. -/
def Last3Days : TimeWindow := { Hours := 72, Display := "3d" }

/-- models.Last7Days. -/
def Last7Days : TimeWindow := { Hours := 168, Display := "7d" }

/-- models.AllTimeWindows: the four predefined windows in index order. -/
def AllTimeWindows : List TimeWindow := [AllTime, Last24Hours, Last3Days, Last7Days]

/-- models.TimeWindow.GetLeaderboardIndex: switch on Hours with default 0. -/
def TimeWindow.GetLeaderboardIndex (w : TimeWindow) : Nat :=
  if w.Hours = 0 then 0
  else if w.Hours = 24 then 1
  else if w.Hours = 72 then 2
  else if w.Hours = 168 then 3
  else 0

/-- models.FromQueryParam (IWhitebird variant returning (TimeWindow, error)):
a switch on the literal strings; the default branch logs and still returns
(AllTime, nil).  The error component is nil in every branch. -/
def FromQueryParam (window : String) : TimeWindow × Option String :=
  if window = "" then (AllTime, none)
  else if window = "24h" then (Last24Hours, none)
  else if window = "3d" then (Last3Days, none)
  else if window = "7d" then (Last7Days, none)
  else (AllTime, none)

/-- Nanoseconds per hour: time.Hour as a time.Duration count. -/
def nsPerHour : Int := 3600000000000

/-- models.LeaderboardEntry. -/
structure LeaderboardEntry where
  UserID : Int
  Score : Nat
  Rank : Nat
  deriving DecidableEq, Repr

/-- GameLeaderboard (store variant built on the span skip list keyed by
user id): the fixed array of four window leaderboards, each a
SkipList[int64, models.Score] with the ScoreCompare comparator. -/
structure GameLeaderboard where
  lb0 : SkipList Int Score
  lb1 : SkipList Int Score
  lb2 : SkipList Int Score
  lb3 : SkipList Int Score
  deriving DecidableEq, Repr

/-- NewGameLeaderboard: four fresh skip lists. -/
def NewGameLeaderboard : GameLeaderboard :=
  { lb0 := SkipList.new Int Score, lb1 := SkipList.new Int Score
    lb2 := SkipList.new Int Score, lb3 := SkipList.new Int Score }

/-- GameLeaderboard.getLeaderboard: array read at the window index, with
the out-of-range fallback to the all-time board. -/
def GameLeaderboard.getLeaderboard (gl : GameLeaderboard) (i : Nat) : SkipList Int Score :=
  if i = 0 then gl.lb0
  else if i = 1 then gl.lb1
  else if i = 2 then gl.lb2
  else if i = 3 then gl.lb3
  else gl.lb0

/-- State-passing form of the in-place mutation of the board at index i
performed under withLeaderboard. -/
def GameLeaderboard.setLeaderboard (gl : GameLeaderboard) (i : Nat)
    (sl : SkipList Int Score) : GameLeaderboard :=
  if i = 0 then { gl with lb0 := sl }
  else if i = 1 then { gl with lb1 := sl }
  else if i = 2 then { gl with lb2 := sl }
  else if i = 3 then { gl with lb3 := sl }
  else gl

/-- GameLeaderboard.getCutoffTime: now − Hours·time.Hour for a bounded
window, the zero time.Time otherwise. -/
def GameLeaderboard.getCutoffTime (now : Int) (w : TimeWindow) : Int :=
  if 0 < w.Hours then now - w.Hours * nsPerHour else 0

/-- GameLeaderboard.isScoreValid: the all-time window accepts everything;
a bounded window accepts a timestamp strictly after its cutoff. -/
def GameLeaderboard.isScoreValid (now : Int) (w : TimeWindow) (ts : Int) : Bool :=
  if w.Hours = 0 then true
  else decide (GameLeaderboard.getCutoffTime now w < ts)

/-- GameLeaderboard.AddScore: build the Score record and, for each of the
four predefined windows in order, if the score is valid for the window,
InsertOrUpdate it into that window's skip list under the write lock. -/
def GameLeaderboard.AddScore (now : Int) (gl : GameLeaderboard)
    (userID : Int) (score : Nat) (ts : Int) : GameLeaderboard :=
  let newScore : Score := { gameId := 0, userId := userID, score := score, timestamp := ts }
  AllTimeWindows.foldl
    (fun g w =>
      if GameLeaderboard.isScoreValid now w ts then
        let i := w.GetLeaderboardIndex
        g.setLeaderboard i
          ((g.getLeaderboard i).InsertOrUpdate ScoreCompare userID newScore).2
      else g)
    gl

/-- GameLeaderboard.GetTopK: read the window board and translate skip-list
entries into LeaderboardEntry records. -/
def GameLeaderboard.GetTopK (gl : GameLeaderboard) (k : Nat) (w : TimeWindow) :
    List LeaderboardEntry :=
  let lb := gl.getLeaderboard w.GetLeaderboardIndex
  (lb.GetTopK k).map fun e =>
    { UserID := e.Key, Score := e.Value.score, Rank := e.Rank }

/-- The five named results of GameLeaderboard.GetRankAndPercentile; the Go
zero values are returned when the user is not found. -/
structure RankResult where
  rank : Nat
  percentile : ℚ
  score : Nat
  total : Nat
  found : Bool
  deriving DecidableEq, Repr

/-- GameLeaderboard.GetRankAndPercentile: GetRank then Search on the
window board; on success total is the board length and
percentile = 100 · (total − rank) / total as the code computes it
(note: without the +1 the specification mandates). -/
def GameLeaderboard.GetRankAndPercentile (gl : GameLeaderboard)
    (userID : Int) (w : TimeWindow) : RankResult :=
  let lb := gl.getLeaderboard w.GetLeaderboardIndex
  match lb.GetRankSpan ScoreCompare userID with
  | none => { rank := 0, percentile := 0, score := 0, total := 0, found := false }
  | some r =>
    match lb.Search userID with
    | none => { rank := 0, percentile := 0, score := 0, total := 0, found := false }
    | some sc =>
      let total := lb.GetLength
      { rank := r
        percentile := 100 * ((total : ℚ) - (r : ℚ)) / (total : ℚ)
        score := sc.score
        total := total
        found := true }

/-- GameLeaderboard.TotalPlayers: the window board length. -/
def GameLeaderboard.TotalPlayers (gl : GameLeaderboard) (w : TimeWindow) : Nat :=
  (gl.getLeaderboard w.GetLeaderboardIndex).GetLength

/-- Store (internal/store/store.go): the game registry mapping game id to
its GameLeaderboard. -/
structure Store where
  leaderboards : List (Int × GameLeaderboard)
  deriving DecidableEq, Repr

/-- Store.GetLeaderboard: read-path registry lookup, nil when absent. -/
def Store.GetLeaderboard (s : Store) (gameID : Int) : Option GameLeaderboard :=
  mapLookup s.leaderboards gameID

/-- Store.GetTopLeaders: empty list when the game is unknown. -/
def Store.GetTopLeaders (s : Store) (gameID : Int) (limit : Nat) (w : TimeWindow) :
    List LeaderboardEntry :=
  match s.GetLeaderboard gameID with
  | none => []
  | some gl => gl.GetTopK limit w

/-- Store.GetPlayerRank: all-zero not-found result when the game is
unknown. -/
def Store.GetPlayerRank (s : Store) (gameID userID : Int) (w : TimeWindow) : RankResult :=
  match s.GetLeaderboard gameID with
  | none => { rank := 0, percentile := 0, score := 0, total := 0, found := false }
  | some gl => gl.GetRankAndPercentile userID w

/-- Store.TotalPlayers: 0 when the game is unknown, otherwise the all-time
board size. -/
def Store.TotalPlayers (s : Store) (gameID : Int) : Nat :=
  match s.GetLeaderboard gameID with
  | none => 0
  | some gl => gl.TotalPlayers AllTime

/-- A Kafka message as the consumer sees it: its broker offset and the
decoded payload, `none` when json.Unmarshal fails (poison message). -/
structure KafkaMessage where
  offset : Nat
  value : Option Score
  deriving DecidableEq, Repr

/-- Result of one KafkaConsumer.processBatch call: the offsets committed
to the broker in commit order, the scores applied through
store.SaveScoreBatch (durable save then cache update), and whether
processBatch returned an error. -/
structure BatchResult where
  committed : List Nat
  applied : List Score
  failed : Bool
  deriving DecidableEq, Repr

/-- KafkaConsumer.saveBatch: an empty batch is a no-op; otherwise
store.SaveScoreBatch persists the batch and applies every score to the
cache, or fails as a whole.  `saveOk` is the oracle for the durable-store
outcome. -/
def saveBatch (saveOk : Bool) (batch : List Score) : List Score × Bool :=
  if batch = [] then ([], false)
  else if saveOk then (batch, false)
  else ([], true)

/-- The loop of KafkaConsumer.processBatch over the stream of FetchMessage
results (the finite list models the messages fetched before the batch
timer fires; a successful CommitMessages call is assumed, and the
fetch-deadline retry iterations are skipped as they change no state).
Each message is decoded; a poison message is committed and skipped; a
decoded message is appended to the batch and its offset committed
immediately — before saveBatch runs.  The batch is saved when it reaches
batchSize or when the stream ends (the timer / ctx path). -/
def processBatch (batchSize : Nat) (saveOk : Bool) :
    List KafkaMessage → List Score → List Nat → BatchResult
  | [], batch, committed =>
    { committed := committed, applied := (saveBatch saveOk batch).1
      failed := (saveBatch saveOk batch).2 }
  | msg :: rest, batch, committed =>
    if batch.length < batchSize then
      match msg.value with
      | none => processBatch batchSize saveOk rest batch (committed ++ [msg.offset])
      | some score =>
        processBatch batchSize saveOk rest (batch ++ [score]) (committed ++ [msg.offset])
    else
      { committed := committed, applied := (saveBatch saveOk batch).1
        failed := (saveBatch saveOk batch).2 }

/-- What the KafkaConsumer.StartConsumer loop does after one processBatch
call. -/
inductive ConsumerAction where
  | shutdown
  | sleepThenRetry
  | continueNext
  deriving DecidableEq, Repr

/-- The body of the StartConsumer goroutine loop: exit on ctx.Done; on a
processBatch error, log it and time.Sleep(2s) before the next iteration;
otherwise loop immediately. -/
def startConsumerStep (ctxDone : Bool) (r : BatchResult) : ConsumerAction :=
  if ctxDone then ConsumerAction.shutdown
  else if r.failed then ConsumerAction.sleepThenRetry
  else ConsumerAction.continueNext

/-- HTTP response of the submit-score handler. -/
inductive SubmitResponse where
  | badRequest (msg : String)
  | ok
  deriving DecidableEq, Repr

/-- Observable outcome of SubmitScoreHandler: the HTTP response and the
score handed to producer.SendScore (none when rejected before the send). -/
structure SubmitOutcome where
  response : SubmitResponse
  sent : Option Score
  deriving DecidableEq, Repr

/-- api.SubmitScoreHandler (src/api/leaderboard.go): decode the body
(`none` models a ShouldBindJSON failure), replace a zero-valued timestamp
with now, reject non-positive game or user ids with a 400 validation
error, then hand the score to the producer; a SendScore error is only
logged and the handler still returns 200. -/
def SubmitScoreHandler (now : Int) (body : Option Score) (_producerOk : Bool) : SubmitOutcome :=
  match body with
  | none => { response := SubmitResponse.badRequest "Invalid score data", sent := none }
  | some score =>
    let score := if score.timestamp = 0 then { score with timestamp := now } else score
    if score.gameId ≤ 0 ∨ score.userId ≤ 0 then
      { response := SubmitResponse.badRequest "Invalid game ID or user ID", sent := none }
    else
      { response := SubmitResponse.ok, sent := some score }

/-- Outcome of the window-parsing step shared by GetTopLeadersHandler and
GetPlayerRankHandler: the 400 "Invalid window" branch or serving the
parsed window. -/
inductive WindowParseOutcome where
  | invalidWindow
  | serve (w : TimeWindow)
  deriving DecidableEq, Repr

/-- The window-parsing step of the top-K and rank handlers: call
models.FromQueryParam and take the error branch iff it returned a non-nil
error. -/
def handlerWindowStep (s : String) : WindowParseOutcome :=
  let (w, err) := FromQueryParam s
  if err.isSome then WindowParseOutcome.invalidWindow
  else WindowParseOutcome.serve w

/-- ScoreCompare is negative exactly when the first record is strictly
better: higher score, or equal score and earlier timestamp. -/
theorem ScoreCompare_neg_iff (a b : Score) :
    ScoreCompare a b < 0 ↔ (b.score < a.score ∨ (a.score = b.score ∧ a.timestamp < b.timestamp)) := by
  unfold ScoreCompare
  split_ifs <;> omega

/-- ScoreCompare is non-positive exactly when the first record is at least
as good. -/
theorem ScoreCompare_le_iff (a b : Score) :
    ScoreCompare a b ≤ 0 ↔ (b.score < a.score ∨ (a.score = b.score ∧ a.timestamp ≤ b.timestamp)) := by
  unfold ScoreCompare
  split_ifs <;> omega

/-- ScoreCompare composes: at-least-as-good then strictly-better is
strictly better. -/
theorem ScoreCompare_trans_le_lt (a b c : Score)
    (h1 : ScoreCompare a b ≤ 0) (h2 : ScoreCompare b c < 0) : ScoreCompare a c < 0 := by
  rw [ScoreCompare_le_iff] at h1
  rw [ScoreCompare_neg_iff] at h2 ⊢
  omega

/-- Map assignment is visible to a subsequent lookup of the same key. -/
theorem mapLookup_mapSet_self {K V : Type} [DecidableEq K]
    (m : List (K × V)) (k : K) (v : V) : mapLookup (mapSet m k v) k = some v := by
  induction m with
  | nil => simp [mapSet, mapLookup]
  | cons hd tl ih =>
    obtain ⟨k', v'⟩ := hd
    by_cases h : k' = k <;> simp [mapSet, mapLookup, h, ih]

/-- On a comparator-ordered list, the stop-at-first-not-better walk counts
exactly the entries strictly better than the target value. -/
theorem rankWalk_eq_countP {K V : Type} (cmp : V → V → Int)
    (htrans : ∀ a b c : V, cmp a b ≤ 0 → cmp b c < 0 → cmp a c < 0) (v : V) :
    ∀ l : List (K × V), l.Pairwise (fun a b => cmp a.2 b.2 ≤ 0) →
      rankWalk cmp v l = l.countP (fun e => decide (cmp e.2 v < 0)) := by
  intro l
  induction l with
  | nil => simp [rankWalk]
  | cons hd tl ih =>
    intro hp
    obtain ⟨k1, v1⟩ := hd
    rw [List.pairwise_cons] at hp
    obtain ⟨hhd, htl⟩ := hp
    by_cases hc : cmp v1 v < 0
    · simp only [rankWalk, if_pos hc]
      rw [List.countP_cons, ih htl, if_pos (by simpa using hc)]
      omega
    · have hzero : tl.countP (fun e => decide (cmp e.2 v < 0)) = 0 := by
        rw [List.countP_eq_zero]
        intro x hx
        simp only [decide_eq_true_eq]
        intro hxv
        exact hc (htrans v1 x.2 v (hhd x hx) hxv)
      rw [List.countP_cons, hzero]
      simp [rankWalk, hc]

/-- The span-accumulating walk and the increment walk agree. -/
theorem spanRankWalk_eq_rankWalk {K V : Type} (cmp : V → V → Int) (v : V) :
    ∀ l : List (K × V), spanRankWalk cmp v l = rankWalk cmp v l := by
  intro l
  induction l with
  | nil => rfl
  | cons hd tl ih =>
    obtain ⟨k1, v1⟩ := hd
    by_cases hc : cmp v1 v < 0
    · simp [spanRankWalk, rankWalk, hc, ih]
      omega
    · simp [spanRankWalk, rankWalk, hc]

/-- The GetTopK loop is the k-prefix of the GetAll loop. -/
theorem topKWalk_eq_take {K V : Type} :
    ∀ (l : List (K × V)) (i k : Nat), topKWalk i k l = (allWalk (i + 1) l).take (k - i) := by
  intro l
  induction l with
  | nil => intro i k; simp [topKWalk, allWalk]
  | cons hd tl ih =>
    intro i k
    obtain ⟨k1, v1⟩ := hd
    by_cases h : i < k
    · have hk : k - i = (k - (i + 1)) + 1 := by omega
      simp [topKWalk, allWalk, h, hk, ih tl.length]
      exact ih (i + 1) k
    · have hk : k - i = 0 := by omega
      simp [topKWalk, allWalk, h, hk]

/-- The GetAll loop preserves length. -/
theorem allWalk_length {K V : Type} :
    ∀ (l : List (K × V)) (r : Nat), (allWalk r l).length = l.length := by
  intro l
  induction l with
  | nil => intro r; rfl
  | cons hd tl ih => intro r; obtain ⟨k1, v1⟩ := hd; simp [allWalk, ih]

/-- The ranks emitted by the GetAll loop are consecutive from its start
value. -/
theorem allWalk_map_Rank {K V : Type} :
    ∀ (l : List (K × V)) (r : Nat), (allWalk r l).map Entry.Rank = List.range' r l.length := by
  intro l
  induction l with
  | nil => intro r; rfl
  | cons hd tl ih =>
    intro r
    obtain ⟨k1, v1⟩ := hd
    simp [allWalk, List.range'_succ, ih]

/-- The keys emitted by the GetAll loop are the node keys in order. -/
theorem allWalk_map_Key {K V : Type} :
    ∀ (l : List (K × V)) (r : Nat), (allWalk r l).map Entry.Key = l.map Prod.fst := by
  intro l
  induction l with
  | nil => intro r; rfl
  | cons hd tl ih => intro r; obtain ⟨k1, v1⟩ := hd; simp [allWalk, ih]

/-- Entries of the GetAll loop come from the node list. -/
theorem mem_allWalk {K V : Type} (e : Entry K V) :
    ∀ (l : List (K × V)) (r : Nat), e ∈ allWalk r l → (e.Key, e.Value) ∈ l := by
  intro l
  induction l with
  | nil => intro r h; simp [allWalk] at h
  | cons hd tl ih =>
    intro r h
    obtain ⟨k1, v1⟩ := hd
    simp only [allWalk, List.mem_cons] at h
    rcases h with h | h
    · subst h; simp
    · exact List.mem_cons_of_mem _ (ih (r + 1) h)

/-- The GetAll loop preserves pairwise order of the node values. -/
theorem allWalk_pairwise {K V : Type} (R : V → V → Prop) :
    ∀ (l : List (K × V)), l.Pairwise (fun a b => R a.2 b.2) →
      ∀ r, (allWalk r l).Pairwise (fun e1 e2 => R e1.Value e2.Value) := by
  intro l
  induction l with
  | nil => intro _ r; simp [allWalk]
  | cons hd tl ih =>
    intro hp r
    obtain ⟨k1, v1⟩ := hd
    rw [List.pairwise_cons] at hp
    obtain ⟨hhd, htl⟩ := hp
    simp only [allWalk]
    rw [List.pairwise_cons]
    constructor
    · intro e he
      have := mem_allWalk e tl (r + 1) he
      exact hhd _ this
    · exact ih htl (r + 1)

/-- Prefix of a consecutive range. -/
theorem take_range' : ∀ (n s m : Nat), (List.range' s n).take m = List.range' s (min m n) := by
  intro n
  induction n with
  | zero => intro s m; simp
  | succ n ih =>
    intro s m
    cases m with
    | zero => simp
    | succ m =>
      rw [List.range'_succ]
      simp only [List.take_succ_cons]
      have : min (m + 1) (n + 1) = (min m n) + 1 := by omega
      rw [this, List.range'_succ, ih (s + 1) m]

/-- C2: InsertOrUpdate inserts when the key is absent; when the key is
present it replaces the stored entry (deleteNode of the old value, then
insertNode of the new) exactly when the new value is strictly better
under the injected comparator, and otherwise leaves the index unchanged;
the leaderboard comparator ScoreCompare ranks higher score as better and,
on equal score, earlier timestamp as better. -/
theorem C2_insertOrUpdate_spec (sl : SkipList Int Score) (k : Int) (v : Score) :
    (mapLookup sl.mapIndex k = none →
      sl.InsertOrUpdate ScoreCompare k v = (true, sl.insertNode ScoreCompare k v))
    ∧ (∀ vOld, mapLookup sl.mapIndex k = some vOld → ScoreCompare v vOld < 0 →
      sl.InsertOrUpdate ScoreCompare k v =
        (true, (sl.deleteNode ScoreCompare k vOld).2.insertNode ScoreCompare k v))
    ∧ (∀ vOld, mapLookup sl.mapIndex k = some vOld → ¬ScoreCompare v vOld < 0 →
      sl.InsertOrUpdate ScoreCompare k v = (false, sl))
    ∧ (∀ a b : Score, ScoreCompare a b < 0 ↔
      (b.score < a.score ∨ (a.score = b.score ∧ a.timestamp < b.timestamp))) := by
  refine ⟨?_, ?_, ?_, ScoreCompare_neg_iff⟩
  · intro h
    simp [SkipList.InsertOrUpdate, h]
  · intro vOld h hlt
    simp [SkipList.InsertOrUpdate, h, hlt]
  · intro vOld h hge
    simp [SkipList.InsertOrUpdate, h, hge]

/-- Witness for C2 at a concrete input: the key 1 is absent from the
empty index and the upsert inserts it. -/
theorem C2_insertOrUpdate_spec_witness :
    mapLookup (SkipList.new Int Score).mapIndex 1 = none
    ∧ (SkipList.new Int Score).InsertOrUpdate ScoreCompare 1
        { gameId := 0, userId := 1, score := 5, timestamp := 0 }
      = (true, (SkipList.new Int Score).insertNode ScoreCompare 1
          { gameId := 0, userId := 1, score := 5, timestamp := 0 }) :=
  ⟨rfl,
    (C2_insertOrUpdate_spec (SkipList.new Int Score) 1
      { gameId := 0, userId := 1, score := 5, timestamp := 0 }).1 rfl⟩

/-- processBatch commits the same offsets whether or not the batch save
succeeds: every commit happens before saveBatch runs. -/
theorem processBatch_committed_indep (batchSize : Nat) (saveOk : Bool) :
    ∀ (msgs : List KafkaMessage) (batch : List Score) (committed : List Nat),
      (processBatch batchSize saveOk msgs batch committed).committed
        = (processBatch batchSize true msgs batch committed).committed := by
  intro msgs
  induction msgs with
  | nil => intro batch committed; rfl
  | cons msg rest ih =>
    intro batch committed
    by_cases h : batch.length < batchSize
    · cases hv : msg.value <;> simp [processBatch, h, hv, ih]
    · simp [processBatch, h]

/-- When the batch save fails, processBatch applies nothing to the store
or cache. -/
theorem processBatch_applied_of_failed (batchSize : Nat) :
    ∀ (msgs : List KafkaMessage) (batch : List Score) (committed : List Nat),
      (processBatch batchSize false msgs batch committed).applied = [] := by
  intro msgs
  induction msgs with
  | nil =>
    intro batch committed
    by_cases hb : batch = [] <;> simp [processBatch, saveBatch, hb]
  | cons msg rest ih =>
    intro batch committed
    by_cases h : batch.length < batchSize
    · cases hv : msg.value <;> simp [processBatch, h, hv, ih]
    · simp only [processBatch, if_neg h]
      by_cases hb : batch = [] <;> simp [saveBatch, hb]

/-- Counterexample for C7: with batch size 1, one decoded message and a
failing batch save, processBatch has already committed the message's
offset (committed = [0]) although the save failed and nothing was
applied — the offsets of the failed batch's messages ARE committed before
the batch save succeeds. -/
theorem C7_commit_before_save_counterexample :
    processBatch 1 false
        [{ offset := 0,
           value := some { gameId := 1, userId := 1, score := 100, timestamp := 0 } }] [] []
      = { committed := [0], applied := [], failed := true } := by
  decide

/-- C7 amended: on a failed batch save the consumer loop sleeps 2s and
re-fetches, and the failed batch is not applied; but the offsets are
committed message-by-message before the batch save, identically whether
the save succeeds or fails, so the failed batch's messages are not
re-delivered. -/
theorem C7_amended_commit_then_save (batchSize : Nat) (saveOk : Bool)
    (msgs : List KafkaMessage) :
    (processBatch batchSize saveOk msgs [] []).committed
      = (processBatch batchSize true msgs [] []).committed
    ∧ (saveOk = false → (processBatch batchSize saveOk msgs [] []).applied = [])
    ∧ ((processBatch batchSize saveOk msgs [] []).failed = true →
      startConsumerStep false (processBatch batchSize saveOk msgs [] [])
        = ConsumerAction.sleepThenRetry) := by
  refine ⟨processBatch_committed_indep batchSize saveOk msgs [] [], ?_, ?_⟩
  · intro h
    subst h
    exact processBatch_applied_of_failed batchSize msgs [] []
  · intro h
    simp [startConsumerStep, h]

/-- Witness for C7 amended at a concrete input: one decoded message,
batch size 2, failing save. -/
theorem C7_amended_commit_then_save_witness :
    (processBatch 2 false
        [{ offset := 5,
           value := some { gameId := 1, userId := 1, score := 100, timestamp := 0 } }] [] []).committed
      = (processBatch 2 true
        [{ offset := 5,
           value := some { gameId := 1, userId := 1, score := 100, timestamp := 0 } }] [] []).committed
    ∧ (processBatch 2 false
        [{ offset := 5,
           value := some { gameId := 1, userId := 1, score := 100, timestamp := 0 } }] [] []).applied = []
    ∧ startConsumerStep false
        (processBatch 2 false
          [{ offset := 5,
             value := some { gameId := 1, userId := 1, score := 100, timestamp := 0 } }] [] [])
        = ConsumerAction.sleepThenRetry := by
  have h := C7_amended_commit_then_save 2 false
    [{ offset := 5, value := some { gameId := 1, userId := 1, score := 100, timestamp := 0 } }]
  exact ⟨h.1, h.2.1 rfl, h.2.2 (by decide)⟩

/-- C8: the submit handler rejects a decoded score with a validation
error exactly when game_id ≤ 0 or user_id ≤ 0; for accepted requests a
zero-valued timestamp is replaced by now before the score is handed to
the producer, and a producer failure does not change the outcome, which
is still a 200 success. -/
theorem C8_submitScore_spec (now : Int) (score : Score) (pOk : Bool) :
    ((SubmitScoreHandler now (some score) pOk).response ≠ SubmitResponse.ok
      ↔ (score.gameId ≤ 0 ∨ score.userId ≤ 0))
    ∧ (0 < score.gameId → 0 < score.userId →
      SubmitScoreHandler now (some score) pOk =
        { response := SubmitResponse.ok,
          sent := some (if score.timestamp = 0 then { score with timestamp := now } else score) })
    ∧ SubmitScoreHandler now (some score) false = SubmitScoreHandler now (some score) true := by
  by_cases hid : score.gameId ≤ 0 ∨ score.userId ≤ 0 <;>
    by_cases hts : score.timestamp = 0 <;>
      simp [SubmitScoreHandler, hid, hts] <;>
        omega

/-- Witness for C8 at a concrete input: positive ids, zero timestamp,
failing producer; the handler returns 200 and the enqueued score carries
the current time. -/
theorem C8_submitScore_spec_witness :
    SubmitScoreHandler 99 (some { gameId := 1, userId := 2, score := 50, timestamp := 0 }) false
      = { response := SubmitResponse.ok,
          sent := some { gameId := 1, userId := 2, score := 50, timestamp := 99 } } := by
  have h := (C8_submitScore_spec 99 { gameId := 1, userId := 2, score := 50, timestamp := 0 }
    false).2.1 (by decide) (by decide)
  simpa using h

/-- C9: for a game id with no leaderboard in the registry the read path
returns absent rather than an error: empty top-K, an all-zero not-found
rank result, and 0 total players. -/
theorem C9_unknown_game_reads (s : Store) (gameID : Int) (limit : Nat)
    (w : TimeWindow) (userID : Int) (h : s.GetLeaderboard gameID = none) :
    s.GetTopLeaders gameID limit w = []
    ∧ s.GetPlayerRank gameID userID w
        = { rank := 0, percentile := 0, score := 0, total := 0, found := false }
    ∧ s.TotalPlayers gameID = 0 := by
  refine ⟨?_, ?_, ?_⟩ <;> simp [Store.GetTopLeaders, Store.GetPlayerRank, Store.TotalPlayers, h]

/-- Witness for C9 at a concrete input: the empty registry and game 99. -/
theorem C9_unknown_game_reads_witness :
    Store.GetTopLeaders { leaderboards := [] } 99 10 AllTime = []
    ∧ Store.GetPlayerRank { leaderboards := [] } 99 7 AllTime
        = { rank := 0, percentile := 0, score := 0, total := 0, found := false }
    ∧ Store.TotalPlayers { leaderboards := [] } 99 = 0 :=
  C9_unknown_game_reads { leaderboards := [] } 99 10 AllTime 7 rfl

/-- C10: window parsing is total and never returns an error; every string
outside the four canonical values maps to the all-time window, so the
handlers' Invalid window 400 branch is unreachable and such queries are
served as all-time. -/
theorem C10_window_parse_total (s : String) :
    (FromQueryParam s).2 = none
    ∧ handlerWindowStep s = WindowParseOutcome.serve (FromQueryParam s).1
    ∧ handlerWindowStep s ≠ WindowParseOutcome.invalidWindow
    ∧ (s ≠ "" → s ≠ "24h" → s ≠ "3d" → s ≠ "7d" →
      handlerWindowStep s = WindowParseOutcome.serve AllTime) := by
  have h2 : (FromQueryParam s).2 = none := by
    unfold FromQueryParam
    split_ifs <;> rfl
  have hstep : handlerWindowStep s = WindowParseOutcome.serve (FromQueryParam s).1 := by
    simp [handlerWindowStep, h2]
  refine ⟨h2, hstep, by simp [hstep], ?_⟩
  intro h1 h24 h3 h7
  have hfst : (FromQueryParam s).1 = AllTime := by
    unfold FromQueryParam
    simp [h1, h24, h3, h7]
  rw [hstep, hfst]

/-- Witness for C10 at a concrete input: the string 48h is outside the
canonical set and is served as the all-time window without an error. -/
theorem C10_window_parse_total_witness :
    handlerWindowStep "48h" = WindowParseOutcome.serve AllTime :=
  (C10_window_parse_total "48h").2.2.2 (by decide) (by decide) (by decide) (by decide)

/-- An upsert always leaves its key present in the map. -/
theorem Contains_insertOrUpdate {K V : Type} [DecidableEq K] (cmp : V → V → Int)
    (sl : SkipList K V) (k : K) (v : V) :
    ((sl.InsertOrUpdate cmp k v).2).Contains k = true := by
  unfold SkipList.InsertOrUpdate
  cases h : mapLookup sl.mapIndex k with
  | none => simp [SkipList.insertNode, SkipList.Contains, mapLookup_mapSet_self]
  | some vOld =>
    by_cases hc : cmp v vOld < 0
    · simp [hc, SkipList.insertNode, SkipList.Contains, mapLookup_mapSet_self]
    · simp [hc, SkipList.Contains, h]

/-- Window indices of the four predefined windows. -/
theorem GetLeaderboardIndex_values :
    AllTime.GetLeaderboardIndex = 0 ∧ Last24Hours.GetLeaderboardIndex = 1
    ∧ Last3Days.GetLeaderboardIndex = 2 ∧ Last7Days.GetLeaderboardIndex = 3 :=
  ⟨rfl, rfl, rfl, rfl⟩

/-- A bounded window accepts a timestamp exactly when it is strictly
after now minus the horizon. -/
theorem isScoreValid_bounded (now ts : Int) (w : TimeWindow) (h : 0 < w.Hours) :
    GameLeaderboard.isScoreValid now w ts = true ↔ now - w.Hours * nsPerHour < ts := by
  have hne : ¬w.Hours = 0 := by omega
  simp [GameLeaderboard.isScoreValid, GameLeaderboard.getCutoffTime, hne, h]

/-- AddScore updates the four boards independently: the all-time board is
always upserted, each bounded board is upserted exactly when the score is
valid for its window. -/
theorem AddScore_boards (now : Int) (gl : GameLeaderboard) (u : Int) (s : Nat) (ts : Int) :
    (gl.AddScore now u s ts).lb0
      = (gl.lb0.InsertOrUpdate ScoreCompare u
          { gameId := 0, userId := u, score := s, timestamp := ts }).2
    ∧ (gl.AddScore now u s ts).lb1
      = (if GameLeaderboard.isScoreValid now Last24Hours ts then
          (gl.lb1.InsertOrUpdate ScoreCompare u
            { gameId := 0, userId := u, score := s, timestamp := ts }).2
        else gl.lb1)
    ∧ (gl.AddScore now u s ts).lb2
      = (if GameLeaderboard.isScoreValid now Last3Days ts then
          (gl.lb2.InsertOrUpdate ScoreCompare u
            { gameId := 0, userId := u, score := s, timestamp := ts }).2
        else gl.lb2)
    ∧ (gl.AddScore now u s ts).lb3
      = (if GameLeaderboard.isScoreValid now Last7Days ts then
          (gl.lb3.InsertOrUpdate ScoreCompare u
            { gameId := 0, userId := u, score := s, timestamp := ts }).2
        else gl.lb3) := by
  have hall : GameLeaderboard.isScoreValid now AllTime ts = true := rfl
  cases h24 : GameLeaderboard.isScoreValid now Last24Hours ts <;>
    cases h72 : GameLeaderboard.isScoreValid now Last3Days ts <;>
      cases h168 : GameLeaderboard.isScoreValid now Last7Days ts <;>
        simp [GameLeaderboard.AddScore, AllTimeWindows, GameLeaderboard.setLeaderboard,
          GameLeaderboard.getLeaderboard,
          GetLeaderboardIndex_values.1, GetLeaderboardIndex_values.2.1,
          GetLeaderboardIndex_values.2.2.1, GetLeaderboardIndex_values.2.2.2,
          hall, h24, h72, h168]

/-- C6: a score whose timestamp is older than now minus a bounded window
horizon is never inserted into that window board by AddScore (the board
is unchanged), while the same call always upserts the all-time board —
leaving the user present there — and upserts every window board the score
is valid for. -/
theorem C6_addScore_window_filter (now u : Int) (s : Nat) (ts : Int) (gl : GameLeaderboard) :
    (∀ w ∈ AllTimeWindows, w.Hours ≠ 0 → ts < now - w.Hours * nsPerHour →
      (gl.AddScore now u s ts).getLeaderboard w.GetLeaderboardIndex
        = gl.getLeaderboard w.GetLeaderboardIndex)
    ∧ (∀ w ∈ AllTimeWindows, GameLeaderboard.isScoreValid now w ts = true →
      (gl.AddScore now u s ts).getLeaderboard w.GetLeaderboardIndex
        = ((gl.getLeaderboard w.GetLeaderboardIndex).InsertOrUpdate ScoreCompare u
            { gameId := 0, userId := u, score := s, timestamp := ts }).2)
    ∧ (gl.AddScore now u s ts).getLeaderboard AllTime.GetLeaderboardIndex
      = ((gl.getLeaderboard AllTime.GetLeaderboardIndex).InsertOrUpdate ScoreCompare u
          { gameId := 0, userId := u, score := s, timestamp := ts }).2
    ∧ ((gl.AddScore now u s ts).getLeaderboard AllTime.GetLeaderboardIndex).Contains u
      = true := by
  obtain ⟨h0, h1, h2, h3⟩ := AddScore_boards now gl u s ts
  have hmem : ∀ w : TimeWindow, w ∈ AllTimeWindows ↔
      (w = AllTime ∨ w = Last24Hours ∨ w = Last3Days ∨ w = Last7Days) := by
    intro w
    simp [AllTimeWindows]
  refine ⟨?_, ?_, ?_, ?_⟩
  · intro w hw hnz hold
    rw [hmem] at hw
    rcases hw with rfl | rfl | rfl | rfl
    · exact absurd rfl hnz
    · have hf : GameLeaderboard.isScoreValid now Last24Hours ts = false := by
        rw [Bool.eq_false_iff, Ne, isScoreValid_bounded now ts Last24Hours (by decide)]
        simp only [Last24Hours, nsPerHour] at hold ⊢
        omega
      show (gl.AddScore now u s ts).lb1 = gl.lb1
      rw [h1, hf]
      simp
    · have hf : GameLeaderboard.isScoreValid now Last3Days ts = false := by
        rw [Bool.eq_false_iff, Ne, isScoreValid_bounded now ts Last3Days (by decide)]
        simp only [Last3Days, nsPerHour] at hold ⊢
        omega
      show (gl.AddScore now u s ts).lb2 = gl.lb2
      rw [h2, hf]
      simp
    · have hf : GameLeaderboard.isScoreValid now Last7Days ts = false := by
        rw [Bool.eq_false_iff, Ne, isScoreValid_bounded now ts Last7Days (by decide)]
        simp only [Last7Days, nsPerHour] at hold ⊢
        omega
      show (gl.AddScore now u s ts).lb3 = gl.lb3
      rw [h3, hf]
      simp
  · intro w hw hval
    rw [hmem] at hw
    rcases hw with rfl | rfl | rfl | rfl
    · exact h0
    · show (gl.AddScore now u s ts).lb1
        = (SkipList.InsertOrUpdate ScoreCompare gl.lb1 u
            { gameId := 0, userId := u, score := s, timestamp := ts }).2
      rw [h1, hval]
      simp
    · show (gl.AddScore now u s ts).lb2
        = (SkipList.InsertOrUpdate ScoreCompare gl.lb2 u
            { gameId := 0, userId := u, score := s, timestamp := ts }).2
      rw [h2, hval]
      simp
    · show (gl.AddScore now u s ts).lb3
        = (SkipList.InsertOrUpdate ScoreCompare gl.lb3 u
            { gameId := 0, userId := u, score := s, timestamp := ts }).2
      rw [h3, hval]
      simp
  · exact h0
  · show ((gl.AddScore now u s ts).lb0).Contains u = true
    rw [h0]
    exact Contains_insertOrUpdate ScoreCompare gl.lb0 u _

/-- Witness for C6 at a concrete input: with now at 200 hours on the
clock and a timestamp of 0, the 24h board is untouched while the user
lands in the all-time board. -/
theorem C6_addScore_window_filter_witness :
    (NewGameLeaderboard.AddScore 720000000000000 7 100 0).getLeaderboard
        Last24Hours.GetLeaderboardIndex
      = NewGameLeaderboard.getLeaderboard Last24Hours.GetLeaderboardIndex
    ∧ ((NewGameLeaderboard.AddScore 720000000000000 7 100 0).getLeaderboard
        AllTime.GetLeaderboardIndex).Contains 7 = true := by
  have h := C6_addScore_window_filter 720000000000000 7 100 0 NewGameLeaderboard
  exact ⟨h.1 Last24Hours (by decide) (by decide) (by decide), h.2.2.2⟩

/-- At level 0 every node is linked (heights are at least 1), so the
bottom level of the span-less walk takes exactly one step per strictly
better node before the first that is not: the single-level rank walk. -/
theorem walkAtLevel_zero_fst {K V : Type} (cmp : V → V → Int) (v : V) :
    ∀ l : List ((K × V) × Nat), (∀ n ∈ l, 0 < n.2) →
      (walkAtLevel cmp v 0 l).1 = rankWalk cmp v (l.map Prod.fst) := by
  intro l
  induction l with
  | nil => intro _; rfl
  | cons node rest ih =>
    intro hl
    obtain ⟨⟨k1, v1⟩, lvl⟩ := node
    have hnode : 0 < lvl := hl ((k1, v1), lvl) (by simp)
    have hrest : ∀ n ∈ rest, 0 < n.2 := fun n hn => hl n (by simp [hn])
    by_cases hc : cmp v1 v < 0
    · simp [walkAtLevel, hnode, hc, rankWalk, ih hrest]
      omega
    · simp [walkAtLevel, hnode, hc, rankWalk]

/-- Counterexample for C4 as stated: a comparator-ordered three-node
state of the span-less variant (scores 300, 200, 100 best-first, the
middle node at height 2, list level 2 — reachable with randomLevel draws
1, 2, 1).  The level-1 link from the header jumps straight to the
200-node, so the walk to the 100-node takes one step at level 1 and none
at level 0: GetRank returns 2, not 1 + 2 = 3, the number of strictly
better entries plus one. -/
theorem C4_spanless_rank_counterexample :
    SpanlessSkipList.GetRank ScoreCompare
        { nodes := [((3, { gameId := 0, userId := 3, score := 300, timestamp := 0 }), 1),
            ((2, { gameId := 0, userId := 2, score := 200, timestamp := 0 }), 2),
            ((1, { gameId := 0, userId := 1, score := 100, timestamp := 0 }), 1)]
          mapIndex := [(3, { gameId := 0, userId := 3, score := 300, timestamp := 0 }),
            (2, { gameId := 0, userId := 2, score := 200, timestamp := 0 }),
            (1, { gameId := 0, userId := 1, score := 100, timestamp := 0 })]
          level := 2 } 1
      = some 2
    ∧ 1 + List.countP
        (fun e => decide (ScoreCompare e.1.2
          { gameId := 0, userId := 1, score := 100, timestamp := 0 } < 0))
        [((3, { gameId := 0, userId := 3, score := 300, timestamp := 0 }), 1),
          ((2, { gameId := 0, userId := 2, score := 200, timestamp := 0 }), 2),
          ((1, { gameId := 0, userId := 1, score := 100, timestamp := 0 }), 1)] = 3
    ∧ List.Pairwise (fun a b => ScoreCompare a.1.2 b.1.2 ≤ 0)
        [((3, { gameId := 0, userId := 3, score := 300, timestamp := 0 }), 1),
          ((2, { gameId := 0, userId := 2, score := 200, timestamp := 0 }), 2),
          ((1, { gameId := 0, userId := 1, score := 100, timestamp := 0 }), 1)]
    ∧ mapLookup (K := Int) (V := Score)
        [(3, { gameId := 0, userId := 3, score := 300, timestamp := 0 }),
          (2, { gameId := 0, userId := 2, score := 200, timestamp := 0 }),
          (1, { gameId := 0, userId := 1, score := 100, timestamp := 0 })] 1
      = some { gameId := 0, userId := 1, score := 100, timestamp := 0 }
    ∧ some 2 ≠ some (3 : Nat) := by
  decide

/-- C4 (amended): for every index state whose node list is in comparator
order and every key present in the map, the span GetRank variant returns
1 plus the number of entries strictly better than the key's stored entry
under the comparator, i.e. its 1-based best-first position; the
span-less GetRank variant, which increments rank once per traversed link
at any level, returns the same count on the states where every node is
at level 1 (and can undercount otherwise, see the counterexample).  The
comparator hypothesis is the compatibility the walks rely on (satisfied
by ScoreCompare). -/
theorem C4_getRank_amended {K V : Type} [DecidableEq K] (cmp : V → V → Int)
    (htrans : ∀ a b c : V, cmp a b ≤ 0 → cmp b c < 0 → cmp a c < 0) :
    (∀ (sl : SkipList K V), sl.nodes.Pairwise (fun a b => cmp a.2 b.2 ≤ 0) →
      ∀ (u : K) (v : V), mapLookup sl.mapIndex u = some v →
        sl.GetRankSpan cmp u = some (1 + sl.nodes.countP (fun e => decide (cmp e.2 v < 0))))
    ∧ (∀ (sl : SpanlessSkipList K V), sl.level = 1 → (∀ n ∈ sl.nodes, 0 < n.2) →
      sl.nodes.Pairwise (fun a b => cmp a.1.2 b.1.2 ≤ 0) →
      ∀ (u : K) (v : V), mapLookup sl.mapIndex u = some v →
        sl.GetRank cmp u = some (1 + sl.nodes.countP (fun e => decide (cmp e.1.2 v < 0)))) := by
  constructor
  · intro sl hsort u v hv
    simp only [SkipList.GetRankSpan, hv, spanRankWalk_eq_rankWalk,
      rankWalk_eq_countP cmp htrans v sl.nodes hsort]
    rw [Nat.add_comm]
  · intro sl hlvl hpos hsort u v hv
    have hmap : (sl.nodes.map Prod.fst).Pairwise (fun a b => cmp a.2 b.2 ≤ 0) :=
      List.pairwise_map.mpr hsort
    simp only [SpanlessSkipList.GetRank, hv, hlvl, spanlessRankSteps,
      walkAtLevel_zero_fst cmp v sl.nodes hpos,
      rankWalk_eq_countP cmp htrans v (sl.nodes.map Prod.fst) hmap,
      List.countP_map, Nat.add_zero]
    rfl

/-- Witness for C4 amended at concrete inputs: the span variant on a
three-user state built by upserts reports rank 3 for user 1, and the
span-less variant on an all-level-1 three-user state reports the same. -/
theorem C4_getRank_amended_witness :
    ((((SkipList.new Int Score).InsertOrUpdate ScoreCompare 1
        { gameId := 0, userId := 1, score := 100, timestamp := 0 }).2.InsertOrUpdate ScoreCompare 2
        { gameId := 0, userId := 2, score := 300, timestamp := 0 }).2.InsertOrUpdate ScoreCompare 3
        { gameId := 0, userId := 3, score := 200, timestamp := 0 }).2.GetRankSpan ScoreCompare 1
      = some 3
    ∧ SpanlessSkipList.GetRank ScoreCompare
        { nodes := [((3, { gameId := 0, userId := 3, score := 300, timestamp := 0 }), 1),
            ((2, { gameId := 0, userId := 2, score := 200, timestamp := 0 }), 1),
            ((1, { gameId := 0, userId := 1, score := 100, timestamp := 0 }), 1)]
          mapIndex := [(3, { gameId := 0, userId := 3, score := 300, timestamp := 0 }),
            (2, { gameId := 0, userId := 2, score := 200, timestamp := 0 }),
            (1, { gameId := 0, userId := 1, score := 100, timestamp := 0 })]
          level := 1 } 1
      = some 3 := by
  have h := C4_getRank_amended (K := Int) (V := Score) ScoreCompare ScoreCompare_trans_le_lt
  constructor
  · have h1 := h.1
      ((((SkipList.new Int Score).InsertOrUpdate ScoreCompare 1
        { gameId := 0, userId := 1, score := 100, timestamp := 0 }).2.InsertOrUpdate ScoreCompare 2
        { gameId := 0, userId := 2, score := 300, timestamp := 0 }).2.InsertOrUpdate ScoreCompare 3
        { gameId := 0, userId := 3, score := 200, timestamp := 0 }).2
      (by decide) 1 { gameId := 0, userId := 1, score := 100, timestamp := 0 } (by decide)
    have e : 1 + (((((SkipList.new Int Score).InsertOrUpdate ScoreCompare 1
        { gameId := 0, userId := 1, score := 100, timestamp := 0 }).2.InsertOrUpdate ScoreCompare 2
        { gameId := 0, userId := 2, score := 300, timestamp := 0 }).2.InsertOrUpdate ScoreCompare 3
        { gameId := 0, userId := 3, score := 200, timestamp := 0 }).2.nodes.countP
        (fun e => decide (ScoreCompare e.2
          { gameId := 0, userId := 1, score := 100, timestamp := 0 } < 0)))
      = 3 := by decide
    rw [e] at h1
    exact h1
  · have h2 := h.2
      { nodes := [((3, { gameId := 0, userId := 3, score := 300, timestamp := 0 }), 1),
          ((2, { gameId := 0, userId := 2, score := 200, timestamp := 0 }), 1),
          ((1, { gameId := 0, userId := 1, score := 100, timestamp := 0 }), 1)]
        mapIndex := [(3, { gameId := 0, userId := 3, score := 300, timestamp := 0 }),
          (2, { gameId := 0, userId := 2, score := 200, timestamp := 0 }),
          (1, { gameId := 0, userId := 1, score := 100, timestamp := 0 })]
        level := 1 }
      rfl (by decide) (by decide) 1
      { gameId := 0, userId := 1, score := 100, timestamp := 0 } (by decide)
    have e2 : 1 + List.countP
        (fun e => decide (ScoreCompare e.1.2
          { gameId := 0, userId := 1, score := 100, timestamp := 0 } < 0))
        [((3, { gameId := 0, userId := 3, score := 300, timestamp := 0 }), 1),
          ((2, { gameId := 0, userId := 2, score := 200, timestamp := 0 }), 1),
          ((1, { gameId := 0, userId := 1, score := 100, timestamp := 0 }), 1)] = 3 := by
      decide
    rw [← e2]
    exact h2

/-- C5: GetTopK returns the min(k, n)-prefix of the index in best-first
comparator order with Rank fields 1, 2, ...; GetTopK over the full size
lists exactly the keys of GetAll, which are all node keys in comparator
order (the reverse law). -/
theorem C5_getTopK_spec {K V : Type} (cmp : V → V → Int) (sl : SkipList K V) (k : Nat) :
    (sl.GetTopK k).length = min k sl.nodes.length
    ∧ (sl.GetTopK k).map Entry.Rank = List.range' 1 (min k sl.nodes.length)
    ∧ (sl.nodes.Pairwise (fun a b => cmp a.2 b.2 ≤ 0) →
      (sl.GetTopK k).Pairwise (fun e1 e2 => cmp e1.Value e2.Value ≤ 0))
    ∧ (sl.GetTopK sl.nodes.length).map Entry.Key = (sl.GetAll).map Entry.Key
    ∧ (sl.GetAll).map Entry.Key = sl.nodes.map Prod.fst := by
  have htk : ∀ m : Nat, sl.GetTopK m = (sl.GetAll).take m := by
    intro m
    simp [SkipList.GetTopK, SkipList.GetAll, topKWalk_eq_take]
  refine ⟨?_, ?_, ?_, ?_, allWalk_map_Key sl.nodes 1⟩
  · rw [htk, List.length_take, SkipList.GetAll, allWalk_length]
  · rw [htk, List.map_take, SkipList.GetAll, allWalk_map_Rank, take_range']
  · intro hsort
    rw [htk]
    exact List.Pairwise.sublist (List.take_sublist k _)
      (allWalk_pairwise (fun a b => cmp a b ≤ 0) sl.nodes hsort 1)
  · rw [htk, List.take_of_length_le]
    rw [SkipList.GetAll, allWalk_length]

/-- C1 evaluated at its failing input: in a game with 4 players (scores
100, 300, 200, 50 at one timestamp) the user at rank 3 receives
percentile 25 — the code computes 100 · (total − rank) / total — whereas
the claim, the specification and integration_test.go expect
100 · (total − rank + 1) / total = 50. -/
theorem C1_percentile_code_eval :
    ((((NewGameLeaderboard.AddScore 0 1 100 0).AddScore 0 2 300 0).AddScore 0 3 200
        0).AddScore 0 4 50 0).GetRankAndPercentile 1 AllTime
      = { rank := 3, percentile := 25, score := 100, total := 4, found := true }
    ∧ (((((NewGameLeaderboard.AddScore 0 1 100 0).AddScore 0 2 300 0).AddScore 0 3 200
        0).AddScore 0 4 50 0).GetRankAndPercentile 1 AllTime).percentile
      ≠ 100 * ((4 : ℚ) - 3 + 1) / 4 := by
  have hrank : (((((NewGameLeaderboard.AddScore 0 1 100 0).AddScore 0 2 300 0).AddScore 0 3 200
      0).AddScore 0 4 50 0).getLeaderboard AllTime.GetLeaderboardIndex).GetRankSpan
      ScoreCompare 1 = some 3 := by decide
  have hsearch : (((((NewGameLeaderboard.AddScore 0 1 100 0).AddScore 0 2 300 0).AddScore 0 3
      200 0).AddScore 0 4 50 0).getLeaderboard AllTime.GetLeaderboardIndex).Search 1
      = some { gameId := 0, userId := 1, score := 100, timestamp := 0 } := by decide
  have hlen : (((((NewGameLeaderboard.AddScore 0 1 100 0).AddScore 0 2 300 0).AddScore 0 3 200
      0).AddScore 0 4 50 0).getLeaderboard AllTime.GetLeaderboardIndex).GetLength = 4 := by
    decide
  refine ⟨?_, ?_⟩ <;>
    simp only [GameLeaderboard.GetRankAndPercentile, hrank, hsearch, hlen] <;>
      norm_num [RankResult.mk.injEq]

/-- C3 evaluated at its failing input: users 1 and 2 upsert the equal
record (score 100, timestamp 5), then user 1 upserts the better
(score 200, timestamp 6).  deleteNode matches nodes by comparator value
only, which ignores user ids, so the update unlinks user 2's node: the
traversal now lists user 1 twice and user 2 not at all, violating the
at-most-one-entry-per-user invariant, while size() still equals 2, the
number of distinct users. -/
theorem C3_duplicate_user_eval :
    (((((SkipList.new Int Score).InsertOrUpdate ScoreCompare 1
        { gameId := 0, userId := 1, score := 100, timestamp := 5 }).2.InsertOrUpdate
        ScoreCompare 2
        { gameId := 0, userId := 2, score := 100, timestamp := 5 }).2.InsertOrUpdate
        ScoreCompare 1
        { gameId := 0, userId := 1, score := 200, timestamp := 6 }).2.GetAll).map Entry.Key
      = [1, 1]
    ∧ ((((SkipList.new Int Score).InsertOrUpdate ScoreCompare 1
        { gameId := 0, userId := 1, score := 100, timestamp := 5 }).2.InsertOrUpdate
        ScoreCompare 2
        { gameId := 0, userId := 2, score := 100, timestamp := 5 }).2.InsertOrUpdate
        ScoreCompare 1
        { gameId := 0, userId := 1, score := 200, timestamp := 6 }).2.GetLength = 2 := by
  decide

/-- Witness for C5 at a concrete input: the sorted-output conjunct on a
three-user index. -/
theorem C5_getTopK_spec_witness :
    ((((SkipList.new Int Score).InsertOrUpdate ScoreCompare 1
        { gameId := 0, userId := 1, score := 100, timestamp := 0 }).2.InsertOrUpdate ScoreCompare 2
        { gameId := 0, userId := 2, score := 300, timestamp := 0 }).2.InsertOrUpdate ScoreCompare 3
        { gameId := 0, userId := 3, score := 200, timestamp := 0 }).2.GetTopK 2
      |>.Pairwise (fun e1 e2 => ScoreCompare e1.Value e2.Value ≤ 0) :=
  (C5_getTopK_spec ScoreCompare
    ((((SkipList.new Int Score).InsertOrUpdate ScoreCompare 1
        { gameId := 0, userId := 1, score := 100, timestamp := 0 }).2.InsertOrUpdate ScoreCompare 2
        { gameId := 0, userId := 2, score := 300, timestamp := 0 }).2.InsertOrUpdate ScoreCompare 3
        { gameId := 0, userId := 3, score := 200, timestamp := 0 }).2 2).2.2.1 (by decide)

end GoLeaderBoard
